import Mathlib

/-!
Verification of the PubNub python client transport layer
(src/pubnub/pubnub.py and src/pubnub/crypto.py).

The dispatch engine is embedded shallowly: the outcome of one HTTP round
trip is a `TransportOutcome` (a received response, or one of the transport
exception classes the source catches), and the observable behaviour of the
background unit is a `RunResult`: the ordered list of events it performs
(callback invocations and the setting of the executed flag) together with
an optionally propagated (re-raised) exception.  Machinery imported by
pubnub.py from sibling modules that are not part of the source tree
(errors.py sentinel constants, enums.py status categories, the
PubNubException record of exceptions.py, the ResponseInfo record of
structures.py, and the stdlib urlparse/parse_qs wrappers of utils.py) is
modelled as plain data shells; all decision logic lives in pubnub.py and is
translated line by line.
-/

namespace Pubnub

/-- Modelled from the spec: the sentinel error constants imported from
errors.py (PNERR_SERVER_ERROR, PNERR_CLIENT_ERROR, PNERR_UNKNOWN_ERROR,
PNERR_TOO_MANY_REDIRECTS_ERROR, PNERR_CLIENT_TIMEOUT, PNERR_HTTP_ERROR,
PNERR_CONNECTION_ERROR, PNERR_DEFERRED_NOT_IMPLEMENTED), which the source
compares with `is`; they are distinct constants, so an enumeration. -/
inductive PNErrKind where
  | serverError
  | clientError
  | unknownError
  | tooManyRedirectsError
  | clientTimeout
  | httpError
  | connectionError
  | deferredNotImplemented
deriving DecidableEq, Repr

/-- Modelled from the spec: the PubNubException record of exceptions.py, a
taxonomy error value carrying a kind (pn_error), a message (errormsg) and an
optional HTTP status code. -/
structure PubNubException where
  pn_error : PNErrKind
  errormsg : String
  status_code : Option Nat
deriving DecidableEq, Repr

/-- Modelled from the spec: the PNStatusCategory enumeration of enums.py
(the members pubnub.py uses). -/
inductive PNStatusCategory where
  | PNUnknownCategory
  | PNAccessDeniedCategory
  | PNBadRequestCategory
  | PNTimeoutCategory
  | PNUnexpectedDisconnectCategory
deriving DecidableEq, Repr

/-- Result of utils.urlparse followed by utils.parse_qs on the query
(both thin wrappers over the python stdlib, external to the dispatch
logic): scheme, hostname, and the query mapping each key to its list of
values. -/
structure Url where
  scheme : String
  hostname : Option String
  query : List (String × List String)
deriving DecidableEq, Repr

/-- Opaque token standing for the python object returned by `res.json()`
(parsing is performed by the external requests library; the dispatcher only
passes the parsed body through to the callback). -/
structure PyObj where
  raw : String
deriving DecidableEq, Repr

/-- The response object the external requests library hands back from a
completed round trip: status code, body text (None modelled as `none`),
the parsed json body, the URL of the request actually sent (`res.url`,
already split by urlparse/parse_qs), and the underlying request object
(`res.request`, opaque here). -/
structure HTTPResponse where
  status_code : Nat
  text : Option String
  json : PyObj
  url : Url
  request : String
deriving DecidableEq, Repr

/-- Modelled from the spec: the ResponseInfo record of structures.py, with
the field names used at its construction site in success_callback. -/
structure ResponseInfo where
  status_code : Nat
  tls_enabled : Bool
  origin : Option String
  uuid : Option String
  auth_key : Option String
  client_request : String
deriving DecidableEq, Repr

/-- Arguments of one invocation of the user callback:
`callback(status_category, body, response_info, exception)`. -/
structure CallbackArgs where
  category : PNStatusCategory
  body : Option PyObj
  response_info : Option ResponseInfo
  error : Option PubNubException
deriving DecidableEq, Repr

/-- A python exception value as the dispatch code can observe it:
either an instance whose runtime type is exactly PubNubException, an
instance of a strict subclass of PubNubException, or an instance of an
unrelated exception class.  The distinction matters because
error_callback tests `type(e) is PubNubException`. -/
inductive PyException where
  | pubnub (e : PubNubException)
  | pubnubSubclass (cls : String) (e : PubNubException)
  | other (cls : String)
deriving DecidableEq, Repr

/-- The outcome of the one call to `session.request(**args)` inside
pn_request: either a response, or one of the exception classes matched by
the except chain.  Each raw transport failure is represented by the first
except clause of pn_request that catches it, carrying `str(e)`. -/
inductive TransportOutcome where
  | response (res : HTTPResponse)
  | connectionError (msg : String)
  | httpError (msg : String)
  | timeout (msg : String)
  | tooManyRedirects (msg : String)
  | otherException (msg : String)
deriving DecidableEq, Repr

/-- One observable action of the background unit: a callback invocation or
the setting of the executed flag by call.executed_cb(). -/
inductive Event where
  | callbackInvoked (args : CallbackArgs)
  | executedSet
deriving DecidableEq, Repr

/-- Observable behaviour of one code path: the ordered events it performs,
and an exception it re-raises out of the dispatch path, if any. -/
structure RunResult where
  events : List Event
  raised : Option PyException
deriving DecidableEq, Repr

/-- Value of `requests.codes.ok`: exactly 200. -/
def requests_codes_ok : Nat := 200

/-- Embeds PubNub.pn_request (pubnub.py): builds the request, performs the
round trip, and translates each caught transport exception into a
PubNubException with the matching errors.py constant and `str(e)` as the
message (no status code).  A received response is returned unchanged. -/
def pn_request (t : TransportOutcome) : Except PubNubException HTTPResponse :=
  match t with
  | TransportOutcome.response res => Except.ok res
  | TransportOutcome.connectionError m =>
      Except.error ⟨PNErrKind.connectionError, m, none⟩
  | TransportOutcome.httpError m =>
      Except.error ⟨PNErrKind.httpError, m, none⟩
  | TransportOutcome.timeout m =>
      Except.error ⟨PNErrKind.clientTimeout, m, none⟩
  | TransportOutcome.tooManyRedirects m =>
      Except.error ⟨PNErrKind.tooManyRedirectsError, m, none⟩
  | TransportOutcome.otherException m =>
      Except.error ⟨PNErrKind.unknownError, m, none⟩

/-- Embeds PubNub.request_sync (pubnub.py): calls pn_request; on a response
whose status code differs from requests.codes.ok, raises a PubNubException
whose kind is PNERR_SERVER_ERROR for status at least 500 and
PNERR_CLIENT_ERROR otherwise, whose message is the body text (the string
"N/A" when res.text is None), and which carries the status code; otherwise
returns the response.  A PubNubException raised by pn_request propagates to
the caller. -/
def request_sync (t : TransportOutcome) : Except PubNubException HTTPResponse :=
  match pn_request t with
  | Except.error e => Except.error e
  | Except.ok res =>
      if res.status_code ≠ requests_codes_ok then
        let text := match res.text with
          | none => "N/A"
          | some s => s
        let err := if res.status_code ≥ 500 then PNErrKind.serverError
                   else PNErrKind.clientError
        Except.error ⟨err, text, some res.status_code⟩
      else
        Except.ok res

/-- Embeds the query extraction lines of success_callback:
`if k in query and len(query[k]) > 0: v = query[k][0]` with v otherwise
left as None. -/
def query_first (query : List (String × List String)) (k : String) : Option String :=
  match query.find? (fun p => p.1 == k) with
  | some p => if p.2.length > 0 then p.2.head? else none
  | none => none

/-- Embeds the local success_callback of PubNub.request_async.  Its
argument res is the value pn_request returned; the source guards with
`if res is not None`, and on a None argument the later unguarded
`res.status_code` access would raise AttributeError, modelled by the
`none` branch.  On a response it builds the ResponseInfo from the request
URL, classifies the status category (403 then 400 checks inside the
non-ok branch, starting from PNUnknownCategory), and invokes the callback
exactly once followed by call.executed_cb(). -/
def success_callback (res : Option HTTPResponse) : RunResult :=
  match res with
  | none => ⟨[], some (PyException.other "AttributeError")⟩
  | some r =>
      let url := r.url
      let query := url.query
      let uuid := query_first query "uuid"
      let auth_key := query_first query "auth_key"
      let response_info : Option ResponseInfo := some
        { status_code := r.status_code
          tls_enabled := "https" == url.scheme
          origin := url.hostname
          uuid := uuid
          auth_key := auth_key
          client_request := r.request }
      if r.status_code ≠ requests_codes_ok then
        let status_category := PNStatusCategory.PNUnknownCategory
        let status_category := if r.status_code = 403
          then PNStatusCategory.PNAccessDeniedCategory else status_category
        let status_category := if r.status_code = 400
          then PNStatusCategory.PNBadRequestCategory else status_category
        let text := match r.text with
          | none => "N/A"
          | some s => s
        let err := if r.status_code ≥ 500 then PNErrKind.serverError
                   else PNErrKind.clientError
        ⟨[Event.callbackInvoked
            ⟨status_category, some r.json, response_info,
             some ⟨err, text, some r.status_code⟩⟩,
          Event.executedSet], none⟩
      else
        ⟨[Event.callbackInvoked
            ⟨PNStatusCategory.PNUnknownCategory, some r.json, response_info, none⟩,
          Event.executedSet], none⟩

/-- Embeds the local error_callback of PubNub.request_async: the category
starts as PNBadRequestCategory; an exception whose runtime type is not
exactly PubNubException is re-raised; otherwise the category becomes
PNUnexpectedDisconnectCategory when the kind is PNERR_CONNECTION_ERROR and
PNTimeoutCategory when it is PNERR_CLIENT_TIMEOUT, and the callback is
invoked once with no body and no response info, followed by
call.executed_cb(). -/
def error_callback (e : PyException) : RunResult :=
  let status_category := PNStatusCategory.PNBadRequestCategory
  match e with
  | PyException.pubnub pe =>
      let status_category :=
        if pe.pn_error = PNErrKind.connectionError then
          PNStatusCategory.PNUnexpectedDisconnectCategory
        else if pe.pn_error = PNErrKind.clientTimeout then
          PNStatusCategory.PNTimeoutCategory
        else status_category
      ⟨[Event.callbackInvoked ⟨status_category, none, none, some pe⟩,
        Event.executedSet], none⟩
  | e => ⟨[], some e⟩

/-- Runtime check `type(e) is PubNubException` used by error_callback. -/
def type_is_PubNubException : PyException → Bool
  | PyException.pubnub _ => true
  | _ => false

/-- Embeds AsyncHTTPClient.run (pubnub.py): performs pn_request; on a
response it first tests `self.cancellation_event.isSet()` (the flag value
at that instant is the boolean argument) and returns silently when set,
otherwise runs success_callback; a PubNubException raised by pn_request is
caught and handed to error_callback (its runtime type is exactly
PubNubException because pn_request constructs it directly).  The
cancellation test does not guard the except branch. -/
def AsyncHTTPClient_run (cancellation_event_set : Bool) (t : TransportOutcome) :
    RunResult :=
  match pn_request t with
  | Except.ok res =>
      if cancellation_event_set then ⟨[], none⟩
      else success_callback (some res)
  | Except.error e => error_callback (PyException.pubnub e)

/-- State of a Call handle (pubnub.py): the cancellation Event flag shared
with the background unit, and the is_executed / is_canceled booleans.  The
thread reference carries no observable state and is omitted. -/
structure Call where
  cancellation_event_set : Bool
  is_executed : Bool
  is_canceled : Bool
deriving DecidableEq, Repr

/-- Call state as built by Call.__init__. -/
def Call.init : Call := ⟨false, false, false⟩

/-- Embeds Call.cancel: sets the cancellation Event flag and is_canceled. -/
def Call.cancel (c : Call) : Call :=
  { c with cancellation_event_set := true, is_canceled := true }

/-- Embeds Call.executed_cb: sets is_executed. -/
def Call.executed_cb (c : Call) : Call :=
  { c with is_executed := true }

/-- Number of callback invocations in a run result. -/
def callbackCount (t : RunResult) : Nat :=
  (t.events.filter fun e => match e with
    | Event.callbackInvoked _ => true
    | Event.executedSet => false).length

/-- Whether the executed flag of the handle is true once the background
unit has finished: is_executed starts false and only executed_cb sets it. -/
def executedAfter (t : RunResult) : Bool :=
  t.events.contains Event.executedSet

/-- Category carried by the first callback invocation of a run result. -/
def deliveredCategory? (t : RunResult) : Option PNStatusCategory :=
  match t.events with
  | Event.callbackInvoked args :: _ => some args.category
  | _ => none

/-- ResponseInfo carried by the first callback invocation of a run
result. -/
def deliveredResponseInfo? (t : RunResult) : Option ResponseInfo :=
  match t.events with
  | Event.callbackInvoked args :: _ => args.response_info
  | _ => none

/-- Follows the spec wording for the asynchronous status classification:
403 gives AccessDenied, 400 gives BadRequest, every other status code
gives Unknown. -/
def spec_async_status_category (status : Nat) : PNStatusCategory :=
  if status = 403 then PNStatusCategory.PNAccessDeniedCategory
  else if status = 400 then PNStatusCategory.PNBadRequestCategory
  else PNStatusCategory.PNUnknownCategory

/-- Follows the spec wording for the transport-failure classification of
pn_request: connection failures map to ConnectionError, timeouts to
ClientTimeout, redirect loops to TooManyRedirects, HTTP protocol errors to
HttpError, and every unrecognized failure to UnknownError; a received
response is not a failure. -/
def spec_failure_kind : TransportOutcome → Option PNErrKind
  | TransportOutcome.response _ => none
  | TransportOutcome.connectionError _ => some PNErrKind.connectionError
  | TransportOutcome.httpError _ => some PNErrKind.httpError
  | TransportOutcome.timeout _ => some PNErrKind.clientTimeout
  | TransportOutcome.tooManyRedirects _ => some PNErrKind.tooManyRedirectsError
  | TransportOutcome.otherException _ => some PNErrKind.unknownError

/-- Follows the spec wording for the error-path classification: the
category is UnexpectedDisconnect for ConnectionError, Timeout for
ClientTimeout, and BadRequest for every other kind. -/
def spec_error_status_category (k : PNErrKind) : PNStatusCategory :=
  if k = PNErrKind.connectionError then
    PNStatusCategory.PNUnexpectedDisconnectCategory
  else if k = PNErrKind.clientTimeout then PNStatusCategory.PNTimeoutCategory
  else PNStatusCategory.PNBadRequestCategory

/-- Follows the spec wording for the delivered response metadata: origin
host, TLS flag true exactly for the https scheme, and the uuid and
auth_key query values of the outgoing request URL, absent when the
parameter is missing or its value list is empty. -/
def spec_response_info (res : HTTPResponse) : ResponseInfo :=
  { status_code := res.status_code
    tls_enabled := "https" == res.url.scheme
    origin := res.url.hostname
    uuid := query_first res.url.query "uuid"
    auth_key := query_first res.url.query "auth_key"
    client_request := res.request }

/-- C1 counterexample: a call cancelled before the unit finishes whose
round trip fails at transport level (connection refused) still invokes the
callback once, and the executed flag is set — the claimed suppression does
not cover the transport-failure outcome. -/
theorem C1_cancel_transport_failure_counterexample :
    ¬ (callbackCount (AsyncHTTPClient_run true
          (TransportOutcome.connectionError "Connection refused")) = 0 ∧
       executedAfter (AsyncHTTPClient_run true
          (TransportOutcome.connectionError "Connection refused")) = false) := by
  decide

/-- C1 (amended): when the cancellation flag is set by the time the round
trip finishes, then on the response outcome the callback is suppressed,
nothing is raised and the executed flag stays false; on every
transport-failure outcome the error callback still runs regardless of
cancellation: the callback is invoked exactly once and the executed flag
becomes true. -/
theorem C1_amended_cancel_suppresses_response_path :
    (∀ res : HTTPResponse,
        AsyncHTTPClient_run true (TransportOutcome.response res) =
          ⟨[], none⟩ ∧
        executedAfter (AsyncHTTPClient_run true (TransportOutcome.response res))
          = false) ∧
    (∀ t : TransportOutcome, spec_failure_kind t ≠ none →
        callbackCount (AsyncHTTPClient_run true t) = 1 ∧
        executedAfter (AsyncHTTPClient_run true t) = true) := by
  constructor
  · intro res
    exact ⟨rfl, rfl⟩
  · intro t ht
    cases t with
    | response res => simp [spec_failure_kind] at ht
    | connectionError m => exact ⟨rfl, rfl⟩
    | httpError m => exact ⟨rfl, rfl⟩
    | timeout m => exact ⟨rfl, rfl⟩
    | tooManyRedirects m => exact ⟨rfl, rfl⟩
    | otherException m => exact ⟨rfl, rfl⟩

/-- C1 witness: a cancelled call whose round trip fails with a connection
error still invokes the callback once and sets the executed flag. -/
theorem C1_amended_cancel_witness :
    callbackCount (AsyncHTTPClient_run true
      (TransportOutcome.connectionError "refused")) = 1 ∧
    executedAfter (AsyncHTTPClient_run true
      (TransportOutcome.connectionError "refused")) = true :=
  C1_amended_cancel_suppresses_response_path.2
    (TransportOutcome.connectionError "refused") (by decide)

/-- C2: for every received response the category delivered to the callback
is AccessDenied exactly at status 403, BadRequest exactly at status 400,
and Unknown at every other status code. -/
theorem C2_async_status_classification (res : HTTPResponse) :
    deliveredCategory? (success_callback (some res)) =
      some (spec_async_status_category res.status_code) := by
  rcases res with ⟨sc, txt, jb, url, req⟩
  by_cases h403 : sc = 403
  · subst h403
    rfl
  · by_cases h400 : sc = 400
    · subst h400
      rfl
    · by_cases h200 : sc = 200
      · subst h200
        rfl
      · simp [success_callback, deliveredCategory?, spec_async_status_category,
          requests_codes_ok, h403, h400, h200]

/-- C3 counterexample: status 204 is a 2xx status, yet request_sync raises
a client-error PubNubException instead of returning the response. -/
theorem C3_sync_2xx_counterexample :
    204 / 100 = 2 ∧
    request_sync (TransportOutcome.response
        ⟨204, some "No Content", ⟨"null"⟩,
         ⟨"https", some "ps.pndsn.com", []⟩, "req"⟩) =
      Except.error ⟨PNErrKind.clientError, "No Content", some 204⟩ := by
  exact ⟨rfl, rfl⟩

/-- C3 (amended): request_sync raises exactly when the received status
code differs from 200 (requests.codes.ok), with kind ServerError at
status at least 500 and ClientError otherwise, carrying the body text (the
sentinel "N/A" when the body is absent) and the status code; at status 200
the response is returned unchanged. -/
theorem C3_amended_request_sync_raises_unless_200 (res : HTTPResponse) :
    request_sync (TransportOutcome.response res) =
      (if res.status_code = 200 then Except.ok res
       else Except.error
         ⟨(if res.status_code ≥ 500 then PNErrKind.serverError
           else PNErrKind.clientError),
          (match res.text with
            | none => "N/A"
            | some s => s),
          some res.status_code⟩) := by
  by_cases h : res.status_code = 200
  · simp [request_sync, pn_request, requests_codes_ok, h]
  · simp [request_sync, pn_request, requests_codes_ok, h]

/-- C4: pn_request returns a response exactly when the round trip produced
one (and returns it as-is, whatever its status), and every transport
failure is classified as a PubNubException whose kind is the one the spec
assigns; no failure escapes unclassified and no failure yields a
response. -/
theorem C4_pn_request_total_classification (t : TransportOutcome) :
    (∀ res : HTTPResponse,
        pn_request t = Except.ok res ↔ t = TransportOutcome.response res) ∧
    (∀ e : PubNubException,
        pn_request t = Except.error e → spec_failure_kind t = some e.pn_error) ∧
    (spec_failure_kind t = none ∨
      ∃ e : PubNubException, pn_request t = Except.error e) := by
  refine ⟨?_, ?_, ?_⟩
  · intro res
    cases t <;> simp [pn_request]
  · intro e h
    cases t with
    | response r => exact absurd h (by simp [pn_request])
    | connectionError m =>
        simp only [pn_request] at h
        injection h with h2
        subst h2
        rfl
    | httpError m =>
        simp only [pn_request] at h
        injection h with h2
        subst h2
        rfl
    | timeout m =>
        simp only [pn_request] at h
        injection h with h2
        subst h2
        rfl
    | tooManyRedirects m =>
        simp only [pn_request] at h
        injection h with h2
        subst h2
        rfl
    | otherException m =>
        simp only [pn_request] at h
        injection h with h2
        subst h2
        rfl
  · cases t with
    | response r => exact Or.inl rfl
    | connectionError m => exact Or.inr ⟨_, rfl⟩
    | httpError m => exact Or.inr ⟨_, rfl⟩
    | timeout m => exact Or.inr ⟨_, rfl⟩
    | tooManyRedirects m => exact Or.inr ⟨_, rfl⟩
    | otherException m => exact Or.inr ⟨_, rfl⟩

/-- C4 witness: a timeout outcome is classified with the ClientTimeout
kind. -/
theorem C4_pn_request_witness :
    spec_failure_kind (TransportOutcome.timeout "read timed out") =
      some (PubNubException.mk PNErrKind.clientTimeout "read timed out"
        none).pn_error := by
  exact (C4_pn_request_total_classification
      (TransportOutcome.timeout "read timed out")).2.1
    ⟨PNErrKind.clientTimeout, "read timed out", none⟩ rfl

/-- C5: when pn_request fails with an (exact-type) PubNubException, the
callback is invoked once with the spec category for the kind, no body, no
response info and the error itself, and the executed flag is then set. -/
theorem C5_error_callback_delivery (e : PubNubException) :
    error_callback (PyException.pubnub e) =
      ⟨[Event.callbackInvoked
          ⟨spec_error_status_category e.pn_error, none, none, some e⟩,
        Event.executedSet], none⟩ := by
  rcases e with ⟨k, m, sc⟩
  cases k <;> rfl

/-- C6: every delivered ResponseInfo carries the origin host, a TLS flag
true exactly for the https scheme, and the uuid and auth_key query values
of the request URL with absent defaults; in particular the request with
query uuid=[abc], auth_key=[k1] yields uuid abc and auth_key k1, and a
missing or empty-valued parameter yields an absent value. -/
theorem C6_response_info_extraction (res : HTTPResponse) :
    deliveredResponseInfo? (success_callback (some res)) =
      some (spec_response_info res) ∧
    deliveredResponseInfo? (success_callback (some
        ⟨200, some "[1,\"Sent\"]", ⟨"[1,\"Sent\"]"⟩,
         ⟨"https", some "ps.pndsn.com",
          [("uuid", ["abc"]), ("auth_key", ["k1"])]⟩, "req"⟩)) =
      some ⟨200, true, some "ps.pndsn.com", some "abc", some "k1", "req"⟩ ∧
    (∀ k : String, query_first [] k = none) ∧
    (∀ k : String, query_first [(k, [])] k = none) := by
  refine ⟨?_, ?_, ?_, ?_⟩
  · by_cases h : res.status_code = 200
    · simp [success_callback, deliveredResponseInfo?, spec_response_info,
        requests_codes_ok, h]
    · simp [success_callback, deliveredResponseInfo?, spec_response_info,
        requests_codes_ok, h]
  · rfl
  · intro k
    simp [query_first]
  · intro k
    simp [query_first]

/-- C7: a run that is not cancelled at the check point invokes the
callback exactly once, with the executed flag set immediately after that
single invocation, and raises nothing, whatever the transport outcome. -/
theorem C7_callback_exactly_once (t : TransportOutcome) :
    ∃ args : CallbackArgs,
      AsyncHTTPClient_run false t =
        ⟨[Event.callbackInvoked args, Event.executedSet], none⟩ := by
  cases t with
  | response res =>
      by_cases h : res.status_code = 200
      · refine ⟨⟨PNStatusCategory.PNUnknownCategory, some res.json,
          some ⟨res.status_code, "https" == res.url.scheme, res.url.hostname,
            query_first res.url.query "uuid",
            query_first res.url.query "auth_key", res.request⟩, none⟩, ?_⟩
        simp [AsyncHTTPClient_run, pn_request, success_callback,
          requests_codes_ok, h]
      · refine ⟨⟨(if res.status_code = 400 then
            PNStatusCategory.PNBadRequestCategory
          else if res.status_code = 403 then
            PNStatusCategory.PNAccessDeniedCategory
          else PNStatusCategory.PNUnknownCategory), some res.json,
          some ⟨res.status_code, "https" == res.url.scheme, res.url.hostname,
            query_first res.url.query "uuid",
            query_first res.url.query "auth_key", res.request⟩,
          some ⟨(if 500 ≤ res.status_code then PNErrKind.serverError
              else PNErrKind.clientError),
            (match res.text with
              | none => "N/A"
              | some s => s), some res.status_code⟩⟩, ?_⟩
        simp [AsyncHTTPClient_run, pn_request, success_callback,
          requests_codes_ok, h]
  | connectionError m => exact ⟨_, rfl⟩
  | httpError m => exact ⟨_, rfl⟩
  | timeout m => exact ⟨_, rfl⟩
  | tooManyRedirects m => exact ⟨_, rfl⟩
  | otherException m => exact ⟨_, rfl⟩

/-- C8: during callback-side error processing, an exception whose runtime
type is not exactly PubNubException is re-raised unchanged: no callback
invocation, no executed flag, no category mapping. -/
theorem C8_non_taxonomy_error_propagates (e : PyException)
    (h : type_is_PubNubException e = false) :
    error_callback e = ⟨[], some e⟩ := by
  cases e with
  | pubnub pe => simp [type_is_PubNubException] at h
  | pubnubSubclass cls pe => rfl
  | other cls => rfl

/-- C8 witness: a KeyError raised during error processing propagates. -/
theorem C8_non_taxonomy_error_witness :
    error_callback (PyException.other "KeyError") =
      ⟨[], some (PyException.other "KeyError")⟩ := by
  exact C8_non_taxonomy_error_propagates (PyException.other "KeyError") rfl

/-- C9 counterexample: on a handle whose executed flag is already true and
whose cancellation flag is not set, cancel() still changes the observable
state (it sets the cancellation flag), so cancellation after execution is
not effect-free. -/
theorem C9_cancel_after_executed_counterexample :
    ¬ (Call.cancel ⟨false, true, false⟩ = (⟨false, true, false⟩ : Call)) := by
  decide

/-- C9 (amended): cancel() is idempotent — a second cancel() leaves the
handle exactly as the first — and cancel() never changes the executed
flag, so a cancellation after execution cannot retract the delivered
callback; it does still set the cancellation flag. -/
theorem C9_amended_cancel_idempotent (c : Call) :
    (c.cancel).cancel = c.cancel ∧ (c.cancel).is_executed = c.is_executed := by
  cases c
  exact ⟨rfl, rfl⟩

end Pubnub

namespace PubnubCrypto

/-!
Embedding of src/pubnub/crypto.py (the python-3 path: the module sets
v = 3).  Messages and ciphertexts are represented by their byte sequences
(lists of naturals below 256); the utf-8 encode performed by encrypt and
the utf-8 decode performed by decrypt are the identity on this
representation, and depad removes trailing ASCII padding characters, so
removing p characters coincides with removing p bytes.  The AES block
permutation supplied by the external pycryptodome library is a parameter
(a keyed pair of functions), as are the external hashlib sha256 hex digest
and the stdlib json.loads; the CBC chaining that cipher.encrypt and
cipher.decrypt perform over the block permutation is modelled
explicitly. -/

/-- All members of a byte sequence are byte values. -/
def bytes_lt (l : List Nat) : Prop := ∀ x ∈ l, x < 256

/-- Bytewise xor of two byte sequences, the block-combination step of CBC
mode. -/
def xorBytes (a b : List Nat) : List Nat :=
  List.zipWith (fun x y => x ^^^ y) a b

/-- Property of the external AES primitive used by crypto.py: on 16-byte
blocks, encryption produces a 16-byte block of bytes and decryption
inverts it. -/
def IsBlockCipherOn (encB decB : List Nat → List Nat) : Prop :=
  ∀ xs : List Nat, xs.length = 16 → bytes_lt xs →
    (encB xs).length = 16 ∧ bytes_lt (encB xs) ∧ decB (encB xs) = xs

/-- CBC-mode encryption as performed by cipher.encrypt of the external
AES library: each 16-byte block is xored with the previous ciphertext
block (initially the IV) and passed through the block permutation. -/
def cbc_encrypt (encB : List Nat → List Nat) : List Nat → List Nat → List Nat
  | _, [] => []
  | prev, b :: bs =>
      encB (xorBytes ((b :: bs).take 16) prev) ++
        cbc_encrypt encB (encB (xorBytes ((b :: bs).take 16) prev))
          ((b :: bs).drop 16)
termination_by _ l => l.length
decreasing_by simp [List.length_drop]; omega

/-- CBC-mode decryption as performed by cipher.decrypt of the external
AES library: each 16-byte ciphertext block is passed through the inverse
block permutation and xored with the previous ciphertext block. -/
def cbc_decrypt (decB : List Nat → List Nat) : List Nat → List Nat → List Nat
  | _, [] => []
  | prev, c :: cs =>
      xorBytes (decB ((c :: cs).take 16)) prev ++
        cbc_decrypt decB ((c :: cs).take 16) ((c :: cs).drop 16)
termination_by _ l => l.length
decreasing_by simp [List.length_drop]; omega

/-- The base64 alphabet. -/
def b64chars : List Char :=
  "ABCDEFGHIJKLMNOPQRSTUVWXYZabcdefghijklmnopqrstuvwxyz0123456789+/".toList

/-- Character of one six-bit group. -/
def b64char (n : Nat) : Char := b64chars.getD n '?'

/-- Six-bit value of one alphabet character. -/
def b64val (c : Char) : Nat := b64chars.indexOf c

/-- Embeds base64.encodebytes composed with the removal of the newline
characters it inserts (crypto.py applies .replace to the encoded text):
groups of three bytes become four alphabet characters, a final group of
one or two bytes is completed with padding characters. -/
def b64encode : List Nat → List Char
  | [] => []
  | [b0] => [b64char (b0 / 4), b64char (b0 % 4 * 16), '=', '=']
  | [b0, b1] => [b64char (b0 / 4), b64char (b0 % 4 * 16 + b1 / 16),
      b64char (b1 % 16 * 4), '=']
  | b0 :: b1 :: b2 :: rest =>
      b64char (b0 / 4) :: b64char (b0 % 4 * 16 + b1 / 16) ::
      b64char (b1 % 16 * 4 + b2 / 64) :: b64char (b2 % 64) :: b64encode rest

/-- Embeds base64.decodebytes on newline-free input: four characters at a
time, honouring the padding characters. -/
def b64decode : List Char → List Nat
  | c0 :: c1 :: c2 :: c3 :: rest =>
      if c2 = '=' then [b64val c0 * 4 + b64val c1 / 16]
      else if c3 = '=' then
        [b64val c0 * 4 + b64val c1 / 16,
         b64val c1 % 16 * 16 + b64val c2 / 4]
      else
        (b64val c0 * 4 + b64val c1 / 16) ::
        (b64val c1 % 16 * 16 + b64val c2 / 4) ::
        (b64val c2 % 4 * 64 + b64val c3) :: b64decode rest
  | _ => []

/-- Byte values of the constant IV string Initial16bytes, the sixteen
ASCII digits 0123456789012345. -/
def Initial16bytes : List Nat :=
  [48, 49, 50, 51, 52, 53, 54, 55, 56, 57, 48, 49, 50, 51, 52, 53]

/-- Embeds pad (crypto.py): appends padding copies of the byte whose
value is the padding length 16 - len(msg) % 16; the block_size parameter
of the source is 16 at every call site. -/
def pad (msg : List Nat) : List Nat :=
  let padding := 16 - msg.length % 16
  msg ++ List.replicate padding padding

/-- Embeds depad (crypto.py): msg[0:-ord(msg[-1])].  A last byte of 0
makes the slice msg[0:-0] = msg[0:0], the empty sequence; the empty input,
on which the source raises IndexError, is modelled as empty. -/
def depad (msg : List Nat) : List Nat :=
  let p := msg.getLastD 0
  if p = 0 then [] else msg.take (msg.length - p)

/-- Embeds get_secret (crypto.py, python-3 path): the sha256 hex digest of
the key, computed by the external hashlib passed as the parameter. -/
def get_secret (sha256hex : String → String) (key : String) : String :=
  sha256hex key

/-- Embeds encrypt (crypto.py, python-3 path): derives the cipher key as
the first 32 characters of the secret, CBC-encrypts the padded message
bytes under the constant IV, and base64-encodes the ciphertext with
newlines removed.  The keyed AES block permutation of the external library
is the parameter aesE. -/
def encrypt (aesE : String → List Nat → List Nat)
    (sha256hex : String → String) (key : String) (msg : List Nat) :
    List Char :=
  let secret := get_secret sha256hex key
  b64encode (cbc_encrypt (aesE (secret.take 32)) Initial16bytes (pad msg))

/-- Embeds decrypt (crypto.py, python-3 path): base64-decodes,
CBC-decrypts under the same derived key and IV, depads, and applies
json.loads (the external stdlib, parameter json_loads), returning the
parsed value when parsing succeeds and the plain text itself when it
fails. -/
def decrypt {J : Type} (aesD : String → List Nat → List Nat)
    (sha256hex : String → String) (json_loads : List Nat → Option J)
    (key : String) (msg : List Char) : J ⊕ List Nat :=
  let secret := get_secret sha256hex key
  let plain := depad (cbc_decrypt (aesD (secret.take 32)) Initial16bytes
    (b64decode msg))
  match json_loads plain with
  | some j => Sum.inl j
  | none => Sum.inr plain

theorem b64val_b64char : ∀ n : Nat, n < 64 → b64val (b64char n) = n := by
  decide

theorem b64char_ne_pad_char : ∀ n : Nat, n < 64 → ¬ b64char n = '=' := by
  decide

theorem b64decode_b64encode :
    ∀ (n : Nat) (bs : List Nat), bs.length ≤ n → bytes_lt bs →
      b64decode (b64encode bs) = bs := by
  intro n
  induction n with
  | zero =>
      intro bs h0 _
      have hbs : bs = [] := List.length_eq_zero.mp (Nat.le_zero.mp h0)
      subst hbs
      rfl
  | succ n ih =>
      intro bs hlen hbytes
      match bs with
      | [] => rfl
      | [b0] =>
          have hb0 : b0 < 256 := hbytes b0 (by simp)
          have he : b64encode [b0] =
              [b64char (b0 / 4), b64char (b0 % 4 * 16), '=', '='] := rfl
          rw [he]
          simp only [b64decode, if_true]
          rw [b64val_b64char (b0 / 4) (by omega),
            b64val_b64char (b0 % 4 * 16) (by omega)]
          simp only [List.cons.injEq, and_true]
          omega
      | [b0, b1] =>
          have hb0 : b0 < 256 := hbytes b0 (by simp)
          have hb1 : b1 < 256 := hbytes b1 (by simp)
          have he : b64encode [b0, b1] =
              [b64char (b0 / 4), b64char (b0 % 4 * 16 + b1 / 16),
               b64char (b1 % 16 * 4), '='] := rfl
          rw [he]
          simp only [b64decode, if_true]
          rw [if_neg (b64char_ne_pad_char (b1 % 16 * 4) (by omega))]
          rw [b64val_b64char (b0 / 4) (by omega),
            b64val_b64char (b0 % 4 * 16 + b1 / 16) (by omega),
            b64val_b64char (b1 % 16 * 4) (by omega)]
          simp only [List.cons.injEq, and_true]
          omega
      | b0 :: b1 :: b2 :: rest =>
          have hb0 : b0 < 256 := hbytes b0 (by simp)
          have hb1 : b1 < 256 := hbytes b1 (by simp)
          have hb2 : b2 < 256 := hbytes b2 (by simp)
          have he : b64encode (b0 :: b1 :: b2 :: rest) =
              b64char (b0 / 4) :: b64char (b0 % 4 * 16 + b1 / 16) ::
              b64char (b1 % 16 * 4 + b2 / 64) :: b64char (b2 % 64) ::
              b64encode rest := rfl
          rw [he]
          simp only [b64decode]
          rw [if_neg (b64char_ne_pad_char (b1 % 16 * 4 + b2 / 64) (by omega))]
          rw [if_neg (b64char_ne_pad_char (b2 % 64) (by omega))]
          rw [b64val_b64char (b0 / 4) (by omega),
            b64val_b64char (b0 % 4 * 16 + b1 / 16) (by omega),
            b64val_b64char (b1 % 16 * 4 + b2 / 64) (by omega),
            b64val_b64char (b2 % 64) (by omega)]
          rw [ih rest (by simp at hlen; omega)
            (fun x hx => hbytes x (by simp [hx]))]
          simp only [List.cons.injEq, and_true]
          omega

theorem xorBytes_xorBytes (a : List Nat) :
    ∀ b : List Nat, a.length = b.length → xorBytes (xorBytes a b) b = a := by
  induction a with
  | nil => intro b h; cases b <;> simp [xorBytes]
  | cons x xs ih =>
      intro b h
      cases b with
      | nil => simp at h
      | cons y ys =>
          simp only [xorBytes, List.zipWith_cons_cons, List.cons.injEq]
          refine ⟨Nat.xor_cancel_right y x, ?_⟩
          exact ih ys (by simp at h; omega)

theorem xorBytes_lt (a : List Nat) :
    ∀ b : List Nat, bytes_lt a → bytes_lt b → bytes_lt (xorBytes a b) := by
  induction a with
  | nil => intro b _ _ y hy; simp [xorBytes] at hy
  | cons x xs ih =>
      intro b ha hb y hy
      cases b with
      | nil => simp [xorBytes] at hy
      | cons z zs =>
          simp only [xorBytes, List.zipWith_cons_cons, List.mem_cons] at hy
          rcases hy with hy | hy
          · subst hy
            have hx : x < 2 ^ 8 := by
              have := ha x (by simp)
              omega
            have hz : z < 2 ^ 8 := by
              have := hb z (by simp)
              omega
            have := @Nat.xor_lt_two_pow x z 8 hx hz
            omega
          · exact ih zs (fun u hu => ha u (by simp [hu]))
              (fun u hu => hb u (by simp [hu])) y hy

theorem length_xorBytes (a b : List Nat) :
    (xorBytes a b).length = min a.length b.length := by
  simp [xorBytes, List.length_zipWith]

theorem cbc_encrypt_nil (encB : List Nat → List Nat) (prev : List Nat) :
    cbc_encrypt encB prev [] = [] := by
  simp [cbc_encrypt]

theorem cbc_decrypt_nil (decB : List Nat → List Nat) (prev : List Nat) :
    cbc_decrypt decB prev [] = [] := by
  simp [cbc_decrypt]

theorem cbc_encrypt_ne_nil (encB : List Nat → List Nat) (prev l : List Nat)
    (h : l ≠ []) :
    cbc_encrypt encB prev l =
      encB (xorBytes (l.take 16) prev) ++
        cbc_encrypt encB (encB (xorBytes (l.take 16) prev)) (l.drop 16) := by
  cases l with
  | nil => exact absurd rfl h
  | cons b bs => simp only [cbc_encrypt]

theorem cbc_decrypt_ne_nil (decB : List Nat → List Nat) (prev l : List Nat)
    (h : l ≠ []) :
    cbc_decrypt decB prev l =
      xorBytes (decB (l.take 16)) prev ++
        cbc_decrypt decB (l.take 16) (l.drop 16) := by
  cases l with
  | nil => exact absurd rfl h
  | cons c cs => simp only [cbc_decrypt]

theorem cbc_encrypt_spec (encB decB : List Nat → List Nat)
    (hc : IsBlockCipherOn encB decB) :
    ∀ (n : Nat) (bs prev : List Nat), bs.length ≤ n → bs.length % 16 = 0 →
      bytes_lt bs → prev.length = 16 → bytes_lt prev →
      bytes_lt (cbc_encrypt encB prev bs) ∧
      cbc_decrypt decB prev (cbc_encrypt encB prev bs) = bs := by
  intro n
  induction n with
  | zero =>
      intro bs prev h0 _ _ _ _
      have hbs : bs = [] := List.length_eq_zero.mp (Nat.le_zero.mp h0)
      subst hbs
      rw [cbc_encrypt_nil, cbc_decrypt_nil]
      exact ⟨fun x hx => by simp at hx, rfl⟩
  | succ n ih =>
      intro bs prev hlen hmod hbytes hprevlen hprevbytes
      match bs with
      | [] =>
          rw [cbc_encrypt_nil, cbc_decrypt_nil]
          exact ⟨fun x hx => by simp at hx, rfl⟩
      | b :: tl =>
          have hL : (b :: tl).length = tl.length + 1 := rfl
          have h16 : 16 ≤ (b :: tl).length := by omega
          have htakelen : ((b :: tl).take 16).length = 16 := by
            rw [List.length_take]
            omega
          have hxlen : (xorBytes ((b :: tl).take 16) prev).length = 16 := by
            rw [length_xorBytes, htakelen, hprevlen]
            exact Nat.min_self 16
          have hxbytes : bytes_lt (xorBytes ((b :: tl).take 16) prev) :=
            xorBytes_lt _ _ (fun x hx => hbytes x (List.mem_of_mem_take hx))
              hprevbytes
          obtain ⟨hclen, hcbytes, hcdec⟩ := hc _ hxlen hxbytes
          have henc := cbc_encrypt_ne_nil encB prev (b :: tl) (by simp)
          have hdroplen : ((b :: tl).drop 16).length ≤ n := by
            rw [List.length_drop]
            omega
          have hdropmod : ((b :: tl).drop 16).length % 16 = 0 := by
            rw [List.length_drop]
            omega
          have hdropbytes : bytes_lt ((b :: tl).drop 16) :=
            fun x hx => hbytes x (List.mem_of_mem_drop hx)
          obtain ⟨ihbytes, ihdec⟩ := ih ((b :: tl).drop 16)
            (encB (xorBytes ((b :: tl).take 16) prev)) hdroplen hdropmod
            hdropbytes hclen hcbytes
          constructor
          · rw [henc]
            intro x hx
            rcases List.mem_append.mp hx with hx | hx
            · exact hcbytes x hx
            · exact ihbytes x hx
          · rw [henc]
            have hcne : encB (xorBytes ((b :: tl).take 16) prev) ≠ [] := by
              intro hnil
              rw [hnil] at hclen
              simp at hclen
            rw [cbc_decrypt_ne_nil decB prev _
              (fun hh => hcne (List.append_eq_nil.mp hh).1)]
            have htake : (encB (xorBytes ((b :: tl).take 16) prev) ++
                cbc_encrypt encB (encB (xorBytes ((b :: tl).take 16) prev))
                  ((b :: tl).drop 16)).take 16 =
                encB (xorBytes ((b :: tl).take 16) prev) :=
              List.take_left' hclen
            have hdrop : (encB (xorBytes ((b :: tl).take 16) prev) ++
                cbc_encrypt encB (encB (xorBytes ((b :: tl).take 16) prev))
                  ((b :: tl).drop 16)).drop 16 =
                cbc_encrypt encB (encB (xorBytes ((b :: tl).take 16) prev))
                  ((b :: tl).drop 16) :=
              List.drop_left' hclen
            rw [htake, hdrop, hcdec, ihdec]
            rw [xorBytes_xorBytes _ _ (by rw [htakelen, hprevlen])]
            exact List.take_append_drop 16 (b :: tl)

theorem getLastD_replicate (p v : Nat) (h : 0 < p) :
    ∀ d : Nat, (List.replicate p v).getLastD d = v := by
  induction p with
  | zero => omega
  | succ q ih =>
      intro d
      cases q with
      | zero => rfl
      | succ r =>
          rw [List.replicate_succ, List.getLastD_cons]
          exact ih (by omega) v

theorem getLastD_append_replicate (l : List Nat) (p v : Nat) (h : 0 < p) :
    ∀ d : Nat, (l ++ List.replicate p v).getLastD d = v := by
  induction l with
  | nil =>
      intro d
      simpa using getLastD_replicate p v h d
  | cons x xs ih =>
      intro d
      rw [List.cons_append, List.getLastD_cons]
      exact ih x

theorem pad_length_mod (msg : List Nat) : (pad msg).length % 16 = 0 := by
  simp only [pad, List.length_append, List.length_replicate]
  omega

theorem pad_bytes_lt (msg : List Nat) (h : bytes_lt msg) :
    bytes_lt (pad msg) := by
  intro x hx
  simp only [pad, List.mem_append, List.mem_replicate] at hx
  rcases hx with hx | ⟨-, hx⟩
  · exact h x hx
  · omega

theorem depad_pad (msg : List Nat) : depad (pad msg) = msg := by
  have hq : 0 < 16 - msg.length % 16 := by omega
  simp only [pad, depad]
  rw [getLastD_append_replicate _ _ _ hq]
  rw [if_neg (by omega)]
  rw [List.length_append, List.length_replicate]
  have he : msg.length + (16 - msg.length % 16) - (16 - msg.length % 16) =
      msg.length := by omega
  rw [he]
  exact List.take_left _ _

/-- C10: for every key and message, decrypting an encryption with the
same key recovers the original message through the pad, CBC and base64
layers: the result is the json value parsed from the message when parsing
succeeds and the message text itself otherwise.  The external AES
primitive is assumed to be a block cipher on 16-byte blocks at the key
derived for this call, and the message bytes are byte values. -/
theorem C10_encrypt_decrypt_roundtrip {J : Type}
    (aesE aesD : String → List Nat → List Nat) (sha256hex : String → String)
    (json_loads : List Nat → Option J) (key : String) (msg : List Nat)
    (hmsg : bytes_lt msg)
    (hcipher : IsBlockCipherOn (aesE ((get_secret sha256hex key).take 32))
      (aesD ((get_secret sha256hex key).take 32))) :
    decrypt aesD sha256hex json_loads key (encrypt aesE sha256hex key msg) =
      (match json_loads msg with
        | some j => Sum.inl j
        | none => Sum.inr msg) := by
  have hivlen : Initial16bytes.length = 16 := rfl
  have hivbytes : bytes_lt Initial16bytes := by
    unfold bytes_lt
    decide
  obtain ⟨hctbytes, hctdec⟩ := cbc_encrypt_spec
    (aesE ((get_secret sha256hex key).take 32))
    (aesD ((get_secret sha256hex key).take 32)) hcipher
    (pad msg).length (pad msg) Initial16bytes le_rfl (pad_length_mod msg)
    (pad_bytes_lt msg hmsg) hivlen hivbytes
  simp only [encrypt, decrypt]
  rw [b64decode_b64encode _ _ le_rfl hctbytes]
  rw [hctdec, depad_pad]

/-- C10 witness: the round trip evaluated with the identity block cipher,
a constant hash, and a parse function that always fails, on the two-byte
message [104, 105]. -/
theorem C10_roundtrip_witness :
    decrypt (fun _ xs => xs) (fun _ => "") (fun _ => (none : Option Nat)) "k"
        (encrypt (fun _ xs => xs) (fun _ => "") "k" [104, 105]) =
      Sum.inr [104, 105] := by
  exact C10_encrypt_decrypt_roundtrip (fun _ xs => xs) (fun _ xs => xs)
    (fun _ => "") (fun _ => (none : Option Nat)) "k" [104, 105]
    (by unfold bytes_lt; decide) (fun xs h1 h2 => ⟨h1, h2, rfl⟩)

end PubnubCrypto
